import Mathlib

/-!
Shallow embedding of the nacos registry core of dubbo-go
(package nacos: `nacosRegistry` with Register / UnRegister / Subscribe /
subscribeAll / subscribe / handleServiceEvents / IsAvailable / Destroy,
plus the service-name composition helpers).

Conventions of the embedding:
* Go strings are Lean `String`s; the per-character helpers work on `String.data`.
* Machine time (`time.Time` / `time.Duration`) is modelled as `Nat` nanoseconds;
  `time.Since t` at instant `now` is `now - t` (truncated subtraction, which
  agrees with Go for monotone clocks).
* Backend calls are modelled by passing their outcome as an explicit argument:
  a Go `(bool, error)` pair becomes `Bool × Option String`, an `error` becomes
  `Option String`.
* `float64` weights are modelled in `ℚ`; every weight the claims mention is
  exactly representable in binary floating point, so the `ℚ` model agrees with
  the `float64` computation on them.
-/

namespace Spec2Proof

/-- Modelled from the spec: the parameter keys of the wider repository's
`constant` package (not part of the sampled sources). Their concrete values are
irrelevant to every claim; they only have to be fixed strings. -/
def InterfaceKey : String := "interface"

/-- Parameter key for the service version. -/
def VersionKey : String := "version"

/-- Parameter key for the service group. -/
def GroupKey : String := "group"

/-- Parameter key for the instance weight. -/
def WeightKey : String := "weight"

/-- Parameter key for the requested categories of an interest. -/
def CategoryKey : String := "category"

/-- Parameter key for the registry role. -/
def RegistryRoleKey : String := "registry.role"

/-- Modelled from the spec: `constant.NacosServiceNameSeparator` of the wider
repository. The spec's example service names ("providers:com.foo.Bar:1.0:g1")
pin it to a colon. -/
def NacosServiceNameSeparator : String := ":"

/-- Modelled from the spec: `constant.AnyValue`, the wildcard interest marker. -/
def AnyValue : String := "*"

/-- Modelled from the spec: `constant.DefaultCategory` of the wider repository;
the spec's wildcard example uses "providers" as the default category. -/
def DefaultCategory : String := "providers"

/-- Modelled from the spec: `common.DubboNodes`, the role-index-to-category
table of the wider repository; the spec names the provider/consumer role
partition used as the identity's first component. -/
def DubboNodes : List String := ["consumers", "configurators", "routers", "providers"]

/-- Modelled from the spec: `constant.NacosDefaultRoleType` (the provider role
index, the default for `getCategory`). -/
def NacosDefaultRoleType : Int := 3

/-- Modelled from the spec: the weight bounds of the wider repository's
`constant` package. The spec pins the default to 1.0, the maximum to 10000 and
requires that a parsed "0" falls back to the default, so the minimum threshold
is 0. -/
def MinNacosWeight : ℚ := 0

/-- Maximum accepted nacos weight (spec: values above it are clamped to 10000). -/
def MaxNacosWeight : ℚ := 10000

/-- Default nacos weight (spec: used on parse failure or too-small values). -/
def DefaultNacosWeight : ℚ := 1

/-- The check interval of the availability cache: `checkInterval = 5 * time.Second`,
in nanoseconds. -/
def checkInterval : Nat := 5000000000

/-- An endpooint URL, reduced to the open key/value parameter map that the
claims inspect (`common.URL`; host/port/protocol fields play no role in any
claim). -/
structure URL where
  params : List (String × String)
deriving DecidableEq

/-- `common.URL.GetParam`: look the key up in the parameter map; an absent key
or an empty stored value yields the supplied default (Go: `if len(r) == 0 then r = d`). -/
def getParam (u : URL) (key dflt : String) : String :=
  match u.params.lookup key with
  | some v => if v = "" then dflt else v
  | none => dflt

/-- Left-fold a digit list into the `Nat` it denotes. -/
def digitsToNat (ds : List Char) : Nat :=
  ds.foldl (fun n c => 10 * n + (c.toNat - 48)) 0

/-- Does the character list consist of at least one decimal digit and nothing else. -/
def allDigits (ds : List Char) : Bool :=
  !ds.isEmpty && ds.all (fun c => c.isDigit)

/-- Split a character list on a separator character, keeping empty segments
(the single-character case of Go `strings.Split`). -/
def splitOnChar (sep : Char) : List Char → List (List Char)
  | [] => [[]]
  | c :: cs =>
    match splitOnChar sep cs with
    | [] => [[]]
    | w :: ws => if c = sep then [] :: w :: ws else (c :: w) :: ws

/-- Model of `strconv.ParseFloat(s, 64)` on plain decimal literals (optional
sign, digits, optional fractional part), valued in `ℚ`. Exponent, hex and
Inf/NaN spellings are outside the model; every weight the claims mention is a
plain decimal. A parse failure is `none`. -/
def parseFloatQ (s : String) : Option ℚ :=
  let sign : ℚ × List Char :=
    match s.data with
    | '-' :: rest => (-1, rest)
    | '+' :: rest => (1, rest)
    | rest => (1, rest)
  match splitOnChar '.' sign.2 with
  | [ip] => if allDigits ip then some (sign.1 * (digitsToNat ip : ℚ)) else none
  | [ip, fp] =>
    if allDigits ip && allDigits fp then
      some (sign.1 * ((digitsToNat ip : ℚ) + (digitsToNat fp : ℚ) / (10 : ℚ) ^ fp.length))
    else none
  | _ => none

/-- The weight normalization of `createRegisterParam` (lines 114-122): parse the
weight string; on parse failure or a value at or below the minimum fall back to
the default; clamp values above the maximum. -/
def normalizeWeight (weightStr : String) : ℚ :=
  match parseFloatQ weightStr with
  | none => DefaultNacosWeight
  | some weight =>
    if weight ≤ MinNacosWeight then DefaultNacosWeight
    else if weight > MaxNacosWeight then MaxNacosWeight
    else weight

/-- The weight stored in the registration record built by `createRegisterParam`
for a URL: the `weight` parameter (default "1.0") normalized. -/
def registerWeight (url : URL) : ℚ :=
  normalizeWeight (getParam url WeightKey "1.0")

/-- Model of `strconv.Atoi` with the error discarded, as every call site of the
core does (`role, _ := strconv.Atoi(...)`): a malformed string yields 0. -/
def atoiOrZero (s : String) : Int :=
  match s.data with
  | '-' :: ds => if allDigits ds then -(digitsToNat ds : Int) else 0
  | '+' :: ds => if allDigits ds then (digitsToNat ds : Int) else 0
  | ds => if allDigits ds then (digitsToNat ds : Int) else 0

/-- `getCategory`: parse the registry role parameter (default: the provider
role) and index `DubboNodes` with it. Go would panic on an out-of-range index;
the model totalizes that case with "" (no claim exercises it). -/
def getCategory (url : URL) : String :=
  let role := atoiOrZero (getParam url RegistryRoleKey (toString NacosDefaultRoleType))
  DubboNodes.getD role.toNat ""

/-- Go's `unicode.IsSpace`: '\t', '\n', '\v', '\f', '\r', ' ', U+0085 (NEL),
U+00A0 (NBSP), and the other code points with the Unicode White_Space property
(U+1680, U+2000-U+200A, U+2028, U+2029, U+202F, U+205F, U+3000). -/
def goIsSpace (c : Char) : Bool :=
  (9 ≤ c.toNat && c.toNat ≤ 13) || c.toNat = 32
  || c.toNat = 0x85 || c.toNat = 0xA0 || c.toNat = 0x1680
  || (0x2000 ≤ c.toNat && c.toNat ≤ 0x200A)
  || c.toNat = 0x2028 || c.toNat = 0x2029 || c.toNat = 0x202F
  || c.toNat = 0x205F || c.toNat = 0x3000

/-- Does `strings.TrimSpace value` differ from ""?  Equivalently: does the
string contain a character that Go's `unicode.IsSpace` does not trim. -/
def trimNonEmpty (s : String) : Bool :=
  s.data.any (fun c => !goIsSpace c)

/-- The body of `appendParam` on an already-fetched parameter value: write the
separator, then the value unless it trims to empty. -/
def appendSlot (target : String) (value : String) : String :=
  let target' := target ++ NacosServiceNameSeparator
  if trimNonEmpty value then target' ++ value else target'

/-- `appendParam(target, url, key)`: fetch the parameter (default "") and append
its slot to the buffer. -/
def appendParam (target : String) (url : URL) (key : String) : String :=
  appendSlot target (getParam url key "")

/-- `getServiceName`: category, then the interface, version and group slots. -/
def getServiceName (url : URL) : String :=
  appendParam (appendParam (appendParam (getCategory url) url InterfaceKey) url VersionKey) url GroupKey

/-- The service-name composition at the level of its four components; the slot
of an all-whitespace or empty component is just the separator. -/
def serviceNameParts (category iface ver grp : String) : String :=
  appendSlot (appendSlot (appendSlot category iface) ver) grp

/-- The availability snapshot (`availabilityCache` without its mutex). -/
structure AvailabilityCache where
  lastAvailable : Bool
  lastCheckTime : Nat
deriving DecidableEq

/-- The registry state the claims inspect: the registered-endpoint ledger, the
done-channel flag, presence of the backend naming client, and the availability
snapshot. -/
structure NacosRegistry where
  registryUrls : List URL
  doneClosed : Bool
  clientPresent : Bool
  availability : AvailabilityCache
deriving DecidableEq

/-- `IsAvailable` as a state transformer. `now` is the current instant,
`probeOk` the outcome (`err == nil`) of the page-size-1 `GetAllServicesInfo`
probe should one be issued. Returns the boolean result, the successor state and
the number of backend probe calls performed (0 or 1). -/
def isAvailable (nr : NacosRegistry) (now : Nat) (probeOk : Bool) :
    Bool × NacosRegistry × Nat :=
  if nr.doneClosed then (false, nr, 0)
  else if now - nr.availability.lastCheckTime < checkInterval then
    (nr.availability.lastAvailable, nr, 0)
  else if nr.clientPresent = false then
    (false, { nr with availability := ⟨false, now⟩ }, 0)
  else
    (probeOk, { nr with availability := ⟨probeOk, now⟩ }, 1)

/-- `Register`: `isRegistry` and `err` are the two results of the backend
`RegisterInstance` call. Backend error: return it, ledger untouched. Logical
rejection (`!isRegistry`): descriptive error, ledger untouched. Success: append
the URL to the ledger and return no error. -/
def register (nr : NacosRegistry) (url : URL) (isRegistry : Bool) (err : Option String) :
    Option String × NacosRegistry :=
  match err with
  | some e => (some e, nr)
  | none =>
    if isRegistry = false then
      (some ("registry [" ++ getServiceName url ++ "] to  nacos failed"), nr)
    else
      (none, { nr with registryUrls := nr.registryUrls ++ [url] })

/-- `UnRegister`: `isDeRegistry` and `err` are the results of the backend
`DeregisterInstance` call; mirror of `register` without ledger bookkeeping. -/
def unRegister (url : URL) (isDeRegistry : Bool) (err : Option String) : Option String :=
  match err with
  | some e => some e
  | none =>
    if isDeRegistry = false then
      some ("DeRegistry [" ++ getServiceName url ++ "] to nacos failed")
    else none

/-- `Destroy` (its sequential semantics; the interleaved semantics of the
done-channel guard is modelled separately by `guardRun`). `backend url` gives
the `(isDeRegistry, err)` outcome of the deregister call for `url`. Returns the
successor state, the sequence of `UnRegister` invocations in iteration order
(each outcome is only logged, the loop never aborts), and the number of backend
`CloseClient` calls. -/
def destroy (nr : NacosRegistry) (backend : URL → Bool × Option String) :
    NacosRegistry × List URL × Nat :=
  let nr1 := if nr.doneClosed then nr else { nr with doneClosed := true }
  let calls := nr1.registryUrls
  let _ := calls.map (fun u => unRegister u (backend u).1 (backend u).2)
  let nr2 := { nr1 with registryUrls := [] }
  if nr2.clientPresent then ({ nr2 with clientPresent := false }, calls, 1)
  else (nr2, calls, 0)

/-- Program counter of one thread executing the done-channel guard of `Destroy`:
about to evaluate the `select` (`check`), about to call `close` (`doClose`), or
past the guard (`finished`). -/
inductive GuardPc where
  | check : GuardPc
  | doClose : GuardPc
  | finished : GuardPc
deriving DecidableEq

/-- Shared state of two threads racing through the guard
`select { case <-nr.done: default: close(nr.done) }`: whether the channel is
closed, how many `close` calls were made, whether a `close` hit an
already-closed channel (a Go runtime panic), and both program counters. -/
structure GuardState where
  chClosed : Bool
  closeCalls : Nat
  panicked : Bool
  pcA : GuardPc
  pcB : GuardPc
deriving DecidableEq

/-- Initial guard state: channel open, both threads at the `select`. -/
def guardInit : GuardState :=
  { chClosed := false, closeCalls := 0, panicked := false, pcA := .check, pcB := .check }

/-- One atomic step of one thread: the `select` reads the channel state and
either skips the close (already closed) or commits to calling it; the `close`
call itself panics when, by then, the channel is already closed. -/
def stepThread (pc : GuardPc) (s : GuardState) : GuardPc × GuardState :=
  match pc with
  | .check => if s.chClosed then (.finished, s) else (.doClose, s)
  | .doClose =>
    if s.chClosed then
      (.finished, { s with closeCalls := s.closeCalls + 1, panicked := true })
    else
      (.finished, { s with chClosed := true, closeCalls := s.closeCalls + 1 })
  | .finished => (.finished, s)

/-- Scheduler step: `false` steps thread A, `true` steps thread B. -/
def guardStep (s : GuardState) (t : Bool) : GuardState :=
  if t then
    let r := stepThread s.pcB s
    { r.2 with pcB := r.1 }
  else
    let r := stepThread s.pcA s
    { r.2 with pcA := r.1 }

/-- Run two concurrent executions of the guard under a schedule. -/
def guardRun (sched : List Bool) : GuardState :=
  sched.foldl guardStep guardInit

/-- `strings.Split(dom, NacosServiceNameSeparator)[0]`: the segment of `dom`
before the first separator (the whole string when none occurs). -/
def realCategory (dom : String) : String :=
  ⟨dom.data.takeWhile (fun c => !(c = ':'))⟩

/-- `strings.Contains(dom, NacosServiceNameSeparator)` for the single-character
separator. -/
def containsSep (dom : String) : Bool :=
  dom.data.any (fun c => c = ':')

/-- Go `strings.Split(s, constant.CommaSeparator)`. -/
def splitComma (s : String) : List String :=
  (splitOnChar ',' s.data).map (fun w => ⟨w⟩)

/-- `getAllSubscribeServiceNames` after a successful backend listing `doms`:
keep each listed name once per requested category equal to its segment before
the first separator (names without a separator are dropped). `categoryParam` is
the interest's raw comma-separated category parameter. -/
def getAllSubscribeServiceNames (doms : List String) (categoryParam : String) : List String :=
  let categories := splitComma categoryParam
  doms.flatMap (fun dom =>
    if containsSep dom then
      (categories.filter (fun item => item = realCategory dom)).map (fun _ => dom)
    else [])

/-- The subscription loop of `subscribeAll` over the filtered names: skip names
whose key `name ++ groupName` is already cached; otherwise attempt `subscribe`,
which on success (`ok name`) installs the key into the listener cache. Returns
the attempted subscriptions in order and the final cache. -/
def subscribeLoop (names : List String) (groupName : String) (cache : List String)
    (ok : String → Bool) : List String × List String :=
  match names with
  | [] => ([], cache)
  | name :: rest =>
    if (name ++ groupName) ∈ cache then subscribeLoop rest groupName cache ok
    else
      let cache' := if ok name then cache ++ [name ++ groupName] else cache
      let r := subscribeLoop rest groupName cache' ok
      (name :: r.1, r.2)

/-- `subscribeAll` on a successful listing: filter the listing, then run the
subscription loop against the listener cache. -/
def subscribeAll (doms : List String) (categoryParam groupName : String)
    (cache : List String) (ok : String → Bool) : List String × List String :=
  subscribeLoop (getAllSubscribeServiceNames doms categoryParam) groupName cache ok

/-- The single-service `subscribe` primitive. `available` is the `IsAvailable`
result at the call, `listenErr` the outcome of `listener.listenService`.
Returns the error result and whether a listener was created and the listen call
attempted. -/
def subscribe (serviceName : String) (available : Bool) (listenErr : Option String) :
    Option String × Bool :=
  if serviceName.length = 0 then (none, false)
  else if available = false then (some "nacosRegistry is not available.", false)
  else
    match listenErr with
    | some e => (some e, true)
    | none => (none, true)

/-- `subscribeUntilSuccess`: each trace entry is one loop iteration, giving the
`IsAvailable` result and, when available, the `subscribe` error of that
iteration. The loop exits on unavailability or on the first successful
subscribe; it returns nothing in Go, so the model returns only the number of
subscribe attempts made within the trace. -/
def subscribeUntilSuccess (trace : List (Bool × Option String)) : Nat :=
  match trace with
  | [] => 0
  | (avail, err) :: rest =>
    if avail = false then 0
    else
      match err with
      | none => 1
      | some _ => 1 + subscribeUntilSuccess rest

/-- The public `Subscribe`. `roleParam` is the raw registry-role parameter of
the interest, `serviceParam` its interface parameter; the remaining arguments
feed the branch taken (the wildcard branch runs one synchronous `subscribeAll`
pass, the specific-service branch runs `subscribeUntilSuccess`). Every path of
the Go function ends in `return nil`. -/
def Subscribe (roleParam serviceParam : String)
    (doms : List String) (categoryParam groupName : String)
    (cache : List String) (ok : String → Bool)
    (trace : List (Bool × Option String)) : Option String :=
  let role := atoiOrZero roleParam
  if role ≠ 0 then none
  else if serviceParam = AnyValue then
    let _ := subscribeAll doms categoryParam groupName cache ok
    none
  else
    let _ := subscribeUntilSuccess trace
    none

/-- `handleServiceEvents`: each trace entry is one loop iteration, giving the
`IsAvailable` result and, when available, the `listener.Next()` outcome.
Returns the events forwarded to the notify sink in order and whether the loop
exited within the trace (on exit the deferred `listener.Close()` runs). -/
def handleServiceEvents {α : Type} : List (Bool × Except String α) → List α × Bool
  | [] => ([], false)
  | (avail, step) :: rest =>
    if avail = false then ([], true)
    else
      match step with
      | .error _ => ([], true)
      | .ok ev =>
        let r := handleServiceEvents rest
        (ev :: r.1, r.2)

/-- Is a pump iteration a forwarding iteration (available, and `Next` returned
an event)? Stated from the spec's words, for comparison with
`handleServiceEvents`. -/
def stepOk {α : Type} (s : Bool × Except String α) : Bool :=
  s.1 && (match s.2 with | .ok _ => true | .error _ => false)

/-- The event of a pump iteration, when there is one. -/
def stepEvent {α : Type} (s : Bool × Except String α) : Option α :=
  match s.2 with
  | .ok e => some e
  | .error _ => none

/-- Modelled from the spec: the delivery the spec promises — the events of the
iterations strictly before the first iteration that is unavailable or errors,
in production order, unmodified. -/
def specDelivered {α : Type} (steps : List (Bool × Except String α)) : List α :=
  (steps.takeWhile stepOk).filterMap stepEvent

/-- The slot contents a component contributes after its separator: the
component itself unless it trims to empty. -/
def slotData (v : String) : List Char :=
  if trimNonEmpty v then v.data else []

/-- C3: for every endpoint URL, `Register` returns the backend error when the
backend register call fails, and a descriptive error when the call succeeds but
the backend reports the instance was not registered; in both error cases the
registered-endpoint ledger is unchanged; only on full success is the endpoint
appended to the ledger and nil returned. -/
theorem register_error_paths_leave_ledger_unchanged :
    (∀ (nr : NacosRegistry) (u : URL) (isReg : Bool) (e : String),
      register nr u isReg (some e) = (some e, nr))
    ∧ (∀ (nr : NacosRegistry) (u : URL),
      register nr u false none
        = (some ("registry [" ++ getServiceName u ++ "] to  nacos failed"), nr))
    ∧ (∀ (nr : NacosRegistry) (u : URL),
      register nr u true none
        = (none, { nr with registryUrls := nr.registryUrls ++ [u] })) :=
  ⟨fun _ _ _ _ => rfl, fun _ _ => rfl, fun _ _ => rfl⟩

/-- C10: the public `Subscribe` returns nil on every path — the non-consumer
branch, the wildcard branch (whose `subscribeAll` failures are only logged) and
the specific-service branch (whose `subscribeUntilSuccess` loop swallows every
subscribe error) — for all backend behaviours. -/
theorem public_subscribe_always_returns_nil :
    ∀ (roleParam serviceParam : String) (doms : List String)
      (categoryParam groupName : String) (cache : List String)
      (ok : String → Bool) (trace : List (Bool × Option String)),
      Subscribe roleParam serviceParam doms categoryParam groupName cache ok trace = none := by
  intro roleParam serviceParam doms categoryParam groupName cache ok trace
  simp only [Subscribe]
  split
  · rfl
  · split <;> rfl

/-- C7: the event pump forwards to the notify sink exactly the events produced
by the subscription handle, unmodified and in production order, up to the first
iteration that observes unavailability or a `Next` error; no event is
reordered, batched, dropped mid-stream, or delivered after exit. -/
theorem event_pump_delivers_spec_sequence :
    ∀ {α : Type} (steps : List (Bool × Except String α)),
      (handleServiceEvents steps).1 = specDelivered steps := by
  intro α steps
  induction steps with
  | nil => rfl
  | cons s rest ih =>
    obtain ⟨avail, step⟩ := s
    cases avail with
    | false => simp [handleServiceEvents, specDelivered, stepOk]
    | true =>
      cases step with
      | error e => simp [handleServiceEvents, specDelivered, stepOk, stepEvent]
      | ok ev =>
        simp only [handleServiceEvents, specDelivered, stepOk, stepEvent,
          List.takeWhile, List.filterMap]
        simp only [specDelivered] at ih
        simp [ih]

/-- C1: the done-channel guard of `Destroy` is a non-atomic check-then-close,
so two concurrent `Destroy` calls can both pass the `select` default branch and
both call `close` — the second close hits an already-closed channel, a Go
runtime panic — contradicting the code's own comment that the guard prevents
exactly that panic. Sequentially the guard is safe (one close, no panic) and
repeated `Destroy` closes the backend client exactly once. -/
theorem destroy_guard_not_concurrency_safe :
    (guardRun [false, true, false, true]).panicked = true
    ∧ (guardRun [false, true, false, true]).closeCalls = 2
    ∧ (guardRun [false, false, true, true]).panicked = false
    ∧ (guardRun [false, false, true, true]).closeCalls = 1
    ∧ (destroy ⟨[], false, true, ⟨false, 0⟩⟩ (fun _ => (true, none))).2.2 = 1
    ∧ (destroy (destroy ⟨[], false, true, ⟨false, 0⟩⟩
          (fun _ => (true, none))).1 (fun _ => (true, none))).2.2 = 0 :=
  ⟨rfl, rfl, rfl, rfl, rfl, rfl⟩

/-- C8: the single-service subscribe primitive is a no-op (nil, no listener)
for an empty service name, an error (no listener) when the registry is
unavailable, and otherwise creates a listener, attempts the listen call and
returns that call's error. -/
theorem subscribe_primitive_preconditions :
    (∀ (available : Bool) (listenErr : Option String),
      subscribe "" available listenErr = (none, false))
    ∧ (∀ (name : String) (listenErr : Option String), name ≠ "" →
      subscribe name false listenErr = (some "nacosRegistry is not available.", false))
    ∧ (∀ (name : String) (listenErr : Option String), name ≠ "" →
      subscribe name true listenErr = (listenErr, true)) := by
  refine ⟨fun _ _ => rfl, fun name listenErr h => ?_, fun name listenErr h => ?_⟩
  · have hl : name.length ≠ 0 := fun hz => h (String.ext (by
      have := List.length_eq_zero.mp hz
      simpa using this))
    cases listenErr <;> simp [subscribe, hl]
  · have hl : name.length ≠ 0 := fun hz => h (String.ext (by
      have := List.length_eq_zero.mp hz
      simpa using this))
    cases listenErr <;> simp [subscribe, hl]

/-- Witness for C8 at a concrete unavailable call. -/
theorem subscribe_primitive_preconditions_witness :
    subscribe "svc" false none = (some "nacosRegistry is not available.", false) :=
  subscribe_primitive_preconditions.2.1 "svc" none (by decide)

/-- C2: `IsAvailable` returns false with no probe once the shutdown signal has
fired; within `checkInterval` of the last check it returns the cached boolean
with no probe; otherwise it stamps `lastCheckTime` unconditionally, returns
false without probing for an absent client, and with a client performs exactly
one probe whose success becomes the new cached value — so two calls within the
window share one probe and one boolean. -/
theorem isAvailable_probe_caching :
    (∀ (nr : NacosRegistry) (now : Nat) (p : Bool), nr.doneClosed = true →
      isAvailable nr now p = (false, nr, 0))
    ∧ (∀ (nr : NacosRegistry) (now : Nat) (p : Bool), nr.doneClosed = false →
      now - nr.availability.lastCheckTime < checkInterval →
      isAvailable nr now p = (nr.availability.lastAvailable, nr, 0))
    ∧ (∀ (nr : NacosRegistry) (now : Nat) (p : Bool), nr.doneClosed = false →
      checkInterval ≤ now - nr.availability.lastCheckTime →
      nr.clientPresent = false →
      isAvailable nr now p = (false, { nr with availability := ⟨false, now⟩ }, 0))
    ∧ (∀ (nr : NacosRegistry) (now : Nat) (p : Bool), nr.doneClosed = false →
      checkInterval ≤ now - nr.availability.lastCheckTime →
      nr.clientPresent = true →
      isAvailable nr now p = (p, { nr with availability := ⟨p, now⟩ }, 1))
    ∧ (∀ (nr : NacosRegistry) (t1 t2 : Nat) (p1 p2 : Bool),
      nr.doneClosed = false → nr.clientPresent = true →
      checkInterval ≤ t1 - nr.availability.lastCheckTime →
      t2 - t1 < checkInterval →
      (isAvailable (isAvailable nr t1 p1).2.1 t2 p2).1 = (isAvailable nr t1 p1).1
      ∧ (isAvailable nr t1 p1).2.2 + (isAvailable (isAvailable nr t1 p1).2.1 t2 p2).2.2 = 1) := by
  refine ⟨?_, ?_, ?_, ?_, ?_⟩
  · intro nr now p h
    simp [isAvailable, h]
  · intro nr now p h1 h2
    simp [isAvailable, h1, h2]
  · intro nr now p h1 h2 h3
    simp [isAvailable, h1, h3, Nat.not_lt.mpr h2]
  · intro nr now p h1 h2 h3
    simp [isAvailable, h1, h3, Nat.not_lt.mpr h2]
  · intro nr t1 t2 p1 p2 h1 hcp h2 h3
    have e1 : isAvailable nr t1 p1 = (p1, { nr with availability := ⟨p1, t1⟩ }, 1) := by
      simp [isAvailable, h1, hcp, Nat.not_lt.mpr h2]
    rw [e1]
    simp [isAvailable, h1, h3]

/-- Witness for C2: a probing first call at t=5s followed by a cached call at
t=7s returns the same boolean and performs one probe in total. -/
theorem isAvailable_probe_caching_witness :
    (isAvailable (isAvailable ⟨[], false, true, ⟨false, 0⟩⟩ 5000000000 true).2.1
        7000000000 false).1
      = (isAvailable ⟨[], false, true, ⟨false, 0⟩⟩ 5000000000 true).1
    ∧ (isAvailable ⟨[], false, true, ⟨false, 0⟩⟩ 5000000000 true).2.2
      + (isAvailable (isAvailable ⟨[], false, true, ⟨false, 0⟩⟩ 5000000000 true).2.1
          7000000000 false).2.2 = 1 :=
  isAvailable_probe_caching.2.2.2.2 ⟨[], false, true, ⟨false, 0⟩⟩ 5000000000 7000000000
    true false rfl rfl (by decide) (by decide)

/-- Observable effects of the Destroy model on any state: the deregister loop
visits exactly the recorded ledger in order and the ledger ends empty. -/
theorem destroy_calls_and_ledger (nr : NacosRegistry) (backend : URL → Bool × Option String) :
    (destroy nr backend).2.1 = nr.registryUrls ∧ (destroy nr backend).1.registryUrls = [] := by
  unfold destroy
  cases h : nr.doneClosed <;> by_cases hc : nr.clientPresent <;> simp [h, hc]

/-- C9: during `Destroy` the ledger is iterated in recorded order with one
`UnRegister` call per entry (individual failures only logged, the iteration
never aborts) and the ledger is empty afterwards; after a successful
`Register(E)` on a ledger not yet holding E, `Destroy` invokes `UnRegister`
exactly once for E. -/
theorem destroy_deregisters_ledger_in_order (nr : NacosRegistry) (u : URL)
    (backend : URL → Bool × Option String) (hu : u ∉ nr.registryUrls) :
    (register nr u true none).2.registryUrls = nr.registryUrls ++ [u]
    ∧ (destroy (register nr u true none).2 backend).2.1 = nr.registryUrls ++ [u]
    ∧ (destroy (register nr u true none).2 backend).1.registryUrls = []
    ∧ ((destroy (register nr u true none).2 backend).2.1).count u = 1 := by
  have hr : (register nr u true none).2 = { nr with registryUrls := nr.registryUrls ++ [u] } := rfl
  rw [hr]
  have hd := destroy_calls_and_ledger { nr with registryUrls := nr.registryUrls ++ [u] } backend
  refine ⟨rfl, by simpa using hd.1, hd.2, ?_⟩
  rw [hd.1]
  simp [List.count_append, List.count_eq_zero.mpr hu]

/-- Witness for C9: registering one endpoint into a fresh registry and
destroying it deregisters exactly that endpoint and empties the ledger. -/
theorem destroy_deregisters_ledger_in_order_witness :
    (register ⟨[], false, true, ⟨false, 0⟩⟩ ⟨[("k", "v")]⟩ true none).2.registryUrls
      = [] ++ [⟨[("k", "v")]⟩]
    ∧ (destroy (register ⟨[], false, true, ⟨false, 0⟩⟩ ⟨[("k", "v")]⟩ true none).2
        (fun _ => (true, none))).2.1 = [] ++ [⟨[("k", "v")]⟩]
    ∧ (destroy (register ⟨[], false, true, ⟨false, 0⟩⟩ ⟨[("k", "v")]⟩ true none).2
        (fun _ => (true, none))).1.registryUrls = []
    ∧ ((destroy (register ⟨[], false, true, ⟨false, 0⟩⟩ ⟨[("k", "v")]⟩ true none).2
        (fun _ => (true, none))).2.1).count ⟨[("k", "v")]⟩ = 1 :=
  destroy_deregisters_ledger_in_order ⟨[], false, true, ⟨false, 0⟩⟩ ⟨[("k", "v")]⟩
    (fun _ => (true, none)) (by simp)

/-- C4: the stored weight is the parsed weight parameter, except that a parse
failure or a value at or below the minimum threshold stores the default 1.0 and
a value above 10000 stores 10000; in particular "abc" stores 1.0, "0" stores
1.0, "20000" stores 10000 and "5.5" stores 5.5. -/
theorem weight_normalization_cases :
    (∀ u : URL, registerWeight u = normalizeWeight (getParam u WeightKey "1.0"))
    ∧ (∀ s : String, parseFloatQ s = none → normalizeWeight s = DefaultNacosWeight)
    ∧ (∀ (s : String) (w : ℚ), parseFloatQ s = some w → w ≤ MinNacosWeight →
      normalizeWeight s = DefaultNacosWeight)
    ∧ (∀ (s : String) (w : ℚ), parseFloatQ s = some w → MinNacosWeight < w →
      w ≤ MaxNacosWeight → normalizeWeight s = w)
    ∧ (∀ (s : String) (w : ℚ), parseFloatQ s = some w → MaxNacosWeight < w →
      normalizeWeight s = MaxNacosWeight)
    ∧ normalizeWeight "abc" = 1
    ∧ normalizeWeight "0" = 1
    ∧ normalizeWeight "20000" = 10000
    ∧ normalizeWeight "5.5" = 5.5 := by
  refine ⟨fun _ => rfl, ?_, ?_, ?_, ?_, ?_, ?_, ?_, ?_⟩
  · intro s h
    simp [normalizeWeight, h]
  · intro s w h hle
    simp [normalizeWeight, h, hle]
  · intro s w h hlt hle
    simp [normalizeWeight, h, not_le.mpr hlt, not_lt.mpr hle]
  · intro s w h hlt
    have hmin : ¬ w ≤ MinNacosWeight := by
      refine not_le.mpr (lt_trans ?_ hlt)
      norm_num [MinNacosWeight, MaxNacosWeight]
    simp [normalizeWeight, h, hmin, hlt]
  · have h : parseFloatQ "abc" = none := rfl
    simp [normalizeWeight, h, DefaultNacosWeight]
  · have h : parseFloatQ "0" = some ((1 : ℚ) * ((digitsToNat ['0'] : ℕ) : ℚ)) := rfl
    have h0 : digitsToNat ['0'] = 0 := rfl
    rw [h0] at h
    simp [normalizeWeight, h]
    norm_num [MinNacosWeight, DefaultNacosWeight]
  · have h : parseFloatQ "20000"
        = some ((1 : ℚ) * ((digitsToNat ['2', '0', '0', '0', '0'] : ℕ) : ℚ)) := rfl
    have h0 : digitsToNat ['2', '0', '0', '0', '0'] = 20000 := rfl
    rw [h0] at h
    simp [normalizeWeight, h]
    norm_num [MinNacosWeight, MaxNacosWeight]
  · have h : parseFloatQ "5.5"
        = some ((1 : ℚ) * (((digitsToNat ['5'] : ℕ) : ℚ)
            + ((digitsToNat ['5'] : ℕ) : ℚ) / (10 : ℚ) ^ (['5'] : List Char).length)) := rfl
    have h0 : digitsToNat ['5'] = 5 := rfl
    have h1 : (['5'] : List Char).length = 1 := rfl
    rw [h0, h1] at h
    simp [normalizeWeight, h]
    norm_num [MinNacosWeight, MaxNacosWeight]

/-- Witness for C4: the in-range weight "2" is stored unchanged. -/
theorem weight_normalization_cases_witness : normalizeWeight "2" = 2 :=
  weight_normalization_cases.2.2.2.1 "2" 2
    (by norm_num [show parseFloatQ "2" = some ((1 : ℚ) * ((2 : ℕ) : ℚ)) from rfl])
    (by norm_num [MinNacosWeight])
    (by norm_num [MaxNacosWeight])

/-- Splitting a separator-delimited concatenation: when neither left part
contains the separator, equal concatenations have equal parts. -/
theorem append_colon_inj :
    ∀ (a b x y : List Char), ':' ∉ a → ':' ∉ b →
      a ++ ':' :: x = b ++ ':' :: y → a = b ∧ x = y := by
  intro a
  induction a with
  | nil =>
    intro b x y _ hb h
    cases b with
    | nil => exact ⟨rfl, by simpa using h⟩
    | cons d b' =>
      simp only [List.nil_append, List.cons_append, List.cons.injEq] at h
      obtain ⟨h1, _⟩ := h
      subst h1
      exact absurd (List.mem_cons_self _ _) hb
  | cons c a' ih =>
    intro b x y ha hb h
    cases b with
    | nil =>
      simp only [List.cons_append, List.nil_append, List.cons.injEq] at h
      obtain ⟨h1, _⟩ := h
      subst h1
      exact absurd (List.mem_cons_self _ _) ha
    | cons d b' =>
      simp only [List.cons_append, List.cons.injEq] at h
      obtain ⟨h1, h2⟩ := h
      subst h1
      have ha' : ':' ∉ a' := fun hm => ha (List.mem_cons_of_mem _ hm)
      have hb' : ':' ∉ b' := fun hm => hb (List.mem_cons_of_mem _ hm)
      obtain ⟨he, hxy⟩ := ih b' x y ha' hb' h2
      exact ⟨by rw [he], hxy⟩

/-- The character list underlying the separator constant. -/
theorem sep_data : NacosServiceNameSeparator.data = [':'] := rfl

/-- The character list underlying a composed service name: the category
followed by the three slots, colon-delimited. -/
theorem serviceNameParts_data (c i v g : String) :
    (serviceNameParts c i v g).data
      = c.data ++ ':' :: (slotData i ++ ':' :: (slotData v ++ ':' :: slotData g)) := by
  simp only [serviceNameParts, appendSlot, slotData]
  by_cases hi : trimNonEmpty i <;> by_cases hv : trimNonEmpty v <;> by_cases hg : trimNonEmpty g <;>
    simp [hi, hv, hg, String.data_append, sep_data, List.append_assoc]

/-- A component that is empty or does not trim to empty contributes exactly its
own characters as its slot. -/
theorem slotData_eq_of_clean (s : String) (h : s = "" ∨ trimNonEmpty s = true) :
    slotData s = s.data := by
  rcases h with h | h
  · subst h
    rfl
  · simp [slotData, h]

/-- A separator-free component has a separator-free slot. -/
theorem colon_not_mem_slotData (s : String) (h : ':' ∉ s.data) : ':' ∉ slotData s := by
  unfold slotData
  split
  · exact h
  · simp

/-- C5 (amended): the composition is deterministic in the URL parameters it
reads, equals the four-component composition, and is injective over tuples
whose components are free of the separator character and whose
interface/version/group components are each empty or not all-whitespace. -/
theorem serviceName_stable_and_injective_on_clean_components :
    (∀ u1 u2 : URL,
      getCategory u1 = getCategory u2 →
      getParam u1 InterfaceKey "" = getParam u2 InterfaceKey "" →
      getParam u1 VersionKey "" = getParam u2 VersionKey "" →
      getParam u1 GroupKey "" = getParam u2 GroupKey "" →
      getServiceName u1 = getServiceName u2)
    ∧ (∀ u : URL, getServiceName u
        = serviceNameParts (getCategory u) (getParam u InterfaceKey "")
            (getParam u VersionKey "") (getParam u GroupKey ""))
    ∧ (∀ c1 i1 v1 g1 c2 i2 v2 g2 : String,
      ':' ∉ c1.data → ':' ∉ i1.data → ':' ∉ v1.data → ':' ∉ g1.data →
      ':' ∉ c2.data → ':' ∉ i2.data → ':' ∉ v2.data → ':' ∉ g2.data →
      (i1 = "" ∨ trimNonEmpty i1 = true) → (v1 = "" ∨ trimNonEmpty v1 = true) →
      (g1 = "" ∨ trimNonEmpty g1 = true) →
      (i2 = "" ∨ trimNonEmpty i2 = true) → (v2 = "" ∨ trimNonEmpty v2 = true) →
      (g2 = "" ∨ trimNonEmpty g2 = true) →
      serviceNameParts c1 i1 v1 g1 = serviceNameParts c2 i2 v2 g2 →
      c1 = c2 ∧ i1 = i2 ∧ v1 = v2 ∧ g1 = g2) := by
  refine ⟨?_, fun _ => rfl, ?_⟩
  · intro u1 u2 h0 h1 h2 h3
    simp only [getServiceName, appendParam]
    rw [h0, h1, h2, h3]
  · intro c1 i1 v1 g1 c2 i2 v2 g2 hc1 hi1 hv1 hg1 hc2 hi2 hv2 hg2 e1 e2 e3 e4 e5 e6 h
    have hd : c1.data ++ ':' :: (slotData i1 ++ ':' :: (slotData v1 ++ ':' :: slotData g1))
        = c2.data ++ ':' :: (slotData i2 ++ ':' :: (slotData v2 ++ ':' :: slotData g2)) := by
      rw [← serviceNameParts_data, ← serviceNameParts_data, h]
    obtain ⟨q1, r1⟩ := append_colon_inj _ _ _ _ hc1 hc2 hd
    obtain ⟨q2, r2⟩ := append_colon_inj _ _ _ _
      (colon_not_mem_slotData _ hi1) (colon_not_mem_slotData _ hi2) r1
    obtain ⟨q3, q4⟩ := append_colon_inj _ _ _ _
      (colon_not_mem_slotData _ hv1) (colon_not_mem_slotData _ hv2) r2
    refine ⟨String.ext q1, ?_, ?_, ?_⟩
    · exact String.ext (by
        rw [← slotData_eq_of_clean i1 e1, ← slotData_eq_of_clean i2 e4]
        exact q2)
    · exact String.ext (by
        rw [← slotData_eq_of_clean v1 e2, ← slotData_eq_of_clean v2 e5]
        exact q3)
    · exact String.ext (by
        rw [← slotData_eq_of_clean g1 e3, ← slotData_eq_of_clean g2 e6]
        exact q4)

/-- Counterexample for C5 as stated: distinct component tuples can compose to
byte-identical identities — an all-whitespace interface collapses to the same
slot as an empty one, and a separator inside a component shifts material
between slots. The first collision is also realized through `getServiceName`
on two URLs whose interface parameters differ. -/
theorem serviceName_composition_not_injective :
    getServiceName ⟨[(InterfaceKey, " ")]⟩ = getServiceName ⟨[]⟩
    ∧ getParam ⟨[(InterfaceKey, " ")]⟩ InterfaceKey "" ≠ getParam ⟨[]⟩ InterfaceKey ""
    ∧ serviceNameParts "providers" " " "" "" = serviceNameParts "providers" "" "" ""
    ∧ (" " : String) ≠ ""
    ∧ serviceNameParts "providers" "a:b" "" "" = serviceNameParts "providers" "a" "b:" ""
    ∧ (("a:b" : String), ("" : String)) ≠ (("a" : String), ("b:" : String)) := by
  refine ⟨rfl, by decide, rfl, by decide, rfl, by decide⟩

/-- Witness for C5 at clean concrete components. -/
theorem serviceName_injective_witness :
    ("providers" : String) = "providers" ∧ ("com.foo.Bar" : String) = "com.foo.Bar"
    ∧ ("1.0" : String) = "1.0" ∧ ("g1" : String) = "g1" :=
  serviceName_stable_and_injective_on_clean_components.2.2
    "providers" "com.foo.Bar" "1.0" "g1" "providers" "com.foo.Bar" "1.0" "g1"
    (by decide) (by decide) (by decide) (by decide)
    (by decide) (by decide) (by decide) (by decide)
    (by decide) (by decide) (by decide)
    (by decide) (by decide) (by decide) rfl

/-- Appending the same string on the right is cancellable. -/
theorem string_append_right_cancel (a b c : String) (h : a ++ c = b ++ c) : a = b := by
  have hd : a.data ++ c.data = b.data ++ c.data := by
    rw [← String.data_append, ← String.data_append, h]
  exact String.ext (List.append_cancel_right hd)

/-- Membership in the filtered listing: exactly the listed names that contain a
separator and whose segment before the first separator is a requested category. -/
theorem mem_getAllSubscribeServiceNames (doms : List String) (catParam n : String) :
    n ∈ getAllSubscribeServiceNames doms catParam ↔
      n ∈ doms ∧ containsSep n = true ∧ realCategory n ∈ splitComma catParam := by
  simp only [getAllSubscribeServiceNames, List.mem_flatMap]
  constructor
  · rintro ⟨dom, hdom, hmem⟩
    by_cases hc : containsSep dom = true
    · simp only [hc, if_true] at hmem
      obtain ⟨item, hitem, hdn⟩ := List.mem_map.mp hmem
      obtain ⟨hcats, heq⟩ := List.mem_filter.mp hitem
      subst hdn
      refine ⟨hdom, hc, ?_⟩
      have hieq : item = realCategory dom := of_decide_eq_true heq
      rwa [← hieq]
    · simp [hc] at hmem
  · rintro ⟨hdom, hsep, hcat⟩
    refine ⟨n, hdom, ?_⟩
    simp only [hsep, if_true]
    exact List.mem_map.mpr ⟨realCategory n, List.mem_filter.mpr ⟨hcat, by simp⟩, rfl⟩

/-- The subscription loop attempts exactly the names whose key is not in the
initial cache, in listing order, when the listing has no duplicates — keys
installed by earlier successes never mask a later distinct name. -/
theorem subscribeLoop_attempts :
    ∀ (names : List String) (groupName : String) (cache : List String) (ok : String → Bool),
      names.Nodup →
      (subscribeLoop names groupName cache ok).1
        = names.filter (fun n => decide ((n ++ groupName) ∉ cache)) := by
  intro names
  induction names with
  | nil =>
    intro g cache ok _
    rfl
  | cons name rest ih =>
    intro g cache ok hnd
    obtain ⟨hnotin, hnd'⟩ := List.nodup_cons.mp hnd
    by_cases hc : (name ++ g) ∈ cache
    · have hstep : subscribeLoop (name :: rest) g cache ok = subscribeLoop rest g cache ok := by
        simp [subscribeLoop, hc]
      rw [hstep, ih g cache ok hnd', List.filter_cons]
      simp [hc]
    · have hkey : ∀ n ∈ rest, ((n ++ g) ∈ cache ++ [name ++ g]) ↔ ((n ++ g) ∈ cache) := by
        intro n hn
        constructor
        · intro hmem
          rcases List.mem_append.mp hmem with hmem | hmem
          · exact hmem
          · exfalso
            have he : n ++ g = name ++ g := by simpa using hmem
            exact hnotin (string_append_right_cancel n name g he ▸ hn)
        · intro hmem
          exact List.mem_append.mpr (Or.inl hmem)
      have hfilter : ∀ cache2 : List String,
          (∀ n ∈ rest, ((n ++ g) ∈ cache2) ↔ ((n ++ g) ∈ cache)) →
          rest.filter (fun n => decide ((n ++ g) ∉ cache2))
            = rest.filter (fun n => decide ((n ++ g) ∉ cache)) := by
        intro cache2 hiff
        exact List.filter_congr (fun n hn => decide_eq_decide.mpr (not_congr (hiff n hn)))
      by_cases hok : ok name = true
      · have hstep : (subscribeLoop (name :: rest) g cache ok).1
            = name :: (subscribeLoop rest g (cache ++ [name ++ g]) ok).1 := by
          simp [subscribeLoop, hc, hok]
        rw [hstep, ih g (cache ++ [name ++ g]) ok hnd',
          hfilter (cache ++ [name ++ g]) hkey, List.filter_cons]
        simp [hc]
      · have hstep : (subscribeLoop (name :: rest) g cache ok).1
            = name :: (subscribeLoop rest g cache ok).1 := by
          simp [subscribeLoop, hc, hok]
        rw [hstep, ih g cache ok hnd', List.filter_cons]
        simp [hc]

/-- C6: `subscribeAll` subscribes exactly to the backend-listed service names
whose segment before the first separator equals one of the requested
comma-separated categories and whose key name+group is not already cached;
already-cached names are skipped, and the spec's two-name listing with category
"providers" yields exactly the one providers subscription. -/
theorem subscribeAll_filters_categories_and_dedups :
    (∀ (doms : List String) (catParam n : String),
      n ∈ getAllSubscribeServiceNames doms catParam ↔
        n ∈ doms ∧ containsSep n = true ∧ realCategory n ∈ splitComma catParam)
    ∧ (∀ (doms : List String) (catParam groupName : String) (cache : List String)
        (ok : String → Bool), (getAllSubscribeServiceNames doms catParam).Nodup →
      (subscribeAll doms catParam groupName cache ok).1
        = (getAllSubscribeServiceNames doms catParam).filter
            (fun n => decide ((n ++ groupName) ∉ cache)))
    ∧ (subscribeAll ["providers:com.foo.Bar:1.0:g1", "consumers:com.foo.Bar:1.0:g1"]
        "providers" "grp" [] (fun _ => true)).1 = ["providers:com.foo.Bar:1.0:g1"] := by
  refine ⟨mem_getAllSubscribeServiceNames, ?_, rfl⟩
  intro doms catParam groupName cache ok hnd
  exact subscribeLoop_attempts (getAllSubscribeServiceNames doms catParam) groupName cache ok hnd

/-- Witness for C6: of two matching listed names, the one whose key is already
cached is skipped and only the other is subscribed. -/
theorem subscribeAll_filters_categories_and_dedups_witness :
    (subscribeAll ["providers:a", "providers:b"] "providers" "G"
        ["providers:aG"] (fun _ => true)).1
      = (getAllSubscribeServiceNames ["providers:a", "providers:b"] "providers").filter
          (fun n => decide ((n ++ "G") ∉ ["providers:aG"])) :=
  subscribeAll_filters_categories_and_dedups.2.1 ["providers:a", "providers:b"]
    "providers" "G" ["providers:aG"] (fun _ => true) (by decide)

end Spec2Proof
